import Mathlib

/-!
# Shallow embedding of `src/MaxText/page_managers.py` (class `PageManager`)

The source is a flax `nn.Module` whose mutable state lives in five "cache"
variables.  We embed that state as `PMState` below and each method as a Lean
function on it.

Modelling conventions, all taken from the source:

* `page_indices` is a 1-D int32 array of length `num_pages` (its initializer in
  `setup` is `jnp.arange(self.num_pages, dtype=jnp.int32)`); a nonzero entry at a
  usable index means "page in use", `0` means free (`assign_*` asserts on
  `jnp.count_nonzero(self.page_indices.value[1:]) != self.num_pages-1` and
  searches `jnp.where(self.page_indices.value[1:]==0, size=1)[0]`).
* `seq_lengths`, `seq_pages`, `seq_page_cursor` are declared with shape
  `(max_num_sequences, 1)`; every operation treats them elementwise or by
  row index, so we model them as length-`max_num_sequences` lists of `ℤ`.
  `seq_page_indices` has shape `(max_num_sequences, max_pages_per_sequence)`
  and is modelled as a list of rows.  The head/batch/feature axes of the
  key/value tensors in `update_prefill_step_pages` are carried along unchanged
  by every slice/update, so they are flattened away: `key`/`value` become lists
  of per-position values, the page buffers lists of `page_size`-entry rows.
* int32 overflow never comes into play at the magnitudes any statement below
  uses, so values are plain `ℤ`; `jnp.ceil(a / b).astype(jnp.int32)` is the
  exact rational ceiling, `%` on `ℤ` (`Int.emod`) agrees with Python `%` for a
  positive modulus, and `/` on `ℤ` (`Int.ediv`) floors for a positive divisor.
* `jax.lax.dynamic_update_index_in_dim` clamps an out-of-range index into the
  array (`dynSet` / `dynSetRow`); `jax.lax.dynamic_slice_in_dim` clamps the
  start so the slice stays in bounds (`dynSliceClamp`); an `Array.at[...]`
  scatter drops an out-of-bounds index after resolving a negative one from the
  end (`atSet2d` / `atSet2dWrap`).
* Crucially, the source *discards* the result of every functional update it
  computes on `page_indices` (`self.page_indices.value.at[...].set(...)` in
  `release_slot`, `assign_prefill_step_pages` and `assign_decode_step_pages` is
  never assigned back), so the embedding never updates `page_indices`; the
  places where such a result is computed and dropped are marked in comments.
* A Python `assert` failure (and the `updating_slots[i]` tuple lookup with
  `i ≥ 1`, which is out of range for the index tuple returned by `jnp.where`
  over the modelled axis) aborts the call: the functions return `Option`,
  `none` meaning the call raised.
* A few expressions in the source would already fail to trace as written
  (e.g. `jax.lax.cond(self.seq_lengths.value > 0, 1, 0)` passes array/ints where
  `cond` wants a scalar predicate and callables, and the properties index
  `self.variable`): following the spec, the embedding gives them the arrays
  they evidently denote — elementwise increment of the positive entries — while
  keeping control flow, index arithmetic and the discarded updates exactly as
  written.
-/

/-- The constructor attributes of `PageManager` (fixed configuration). -/
structure Config where
  max_num_sequences : ℕ
  max_target_length : ℕ
  page_size : ℕ
  num_pages : ℕ
deriving DecidableEq

/-- `setup`: `self.max_pages_per_sequence = self.max_target_length // self.page_size`. -/
def maxPagesPerSequence (cfg : Config) : ℕ :=
  cfg.max_target_length / cfg.page_size

/-- `jnp.count_nonzero` on a 1-D int array. -/
def countNonzero (l : List ℤ) : ℕ :=
  (l.filter (fun x => x != 0)).length

/-- `jnp.where(l == 0, size=1)[0]` on a 1-D array: the index of the first zero
entry, padded with the fill value `0` when no entry is zero. -/
def whereFirstZero (l : List ℤ) : ℕ :=
  if l.findIdx (fun x => x == 0) < l.length then l.findIdx (fun x => x == 0) else 0

/-- `jnp.arange(n, dtype=jnp.int32)`. -/
def arangeInt (n : ℕ) : List ℤ :=
  (List.range n).map Int.ofNat

/-- `jnp.ceil(a / b).astype(jnp.int32)` for an int `a` and positive int `b`:
the exact ceiling of `a / b`, via floor division. -/
def ceilDiv (a : ℤ) (b : ℕ) : ℤ :=
  (a + b - 1) / b

/-- `jax.lax.dynamic_update_index_in_dim(l, v, i, axis=0)` on a 1-D array:
the index is clamped into range. -/
def dynSet (l : List ℤ) (v : ℤ) (i : ℕ) : List ℤ :=
  l.set (min i (l.length - 1)) v

/-- `jax.lax.dynamic_update_index_in_dim(m, row, i, axis=0)` writing a whole
row of a 2-D array: the row index is clamped into range. -/
def dynSetRow (m : List (List ℤ)) (row : List ℤ) (i : ℕ) : List (List ℤ) :=
  m.set (min i (m.length - 1)) row

/-- Read entry `(i, j)` of a 2-D array (out of range reads give the dtype
default, which no in-range statement relies on). -/
def get2d (m : List (List ℤ)) (i j : ℕ) : ℤ :=
  (m.getD i []).getD j 0

/-- `m.at[i, j].set v` for nonnegative indices: an out-of-bounds index makes
the scatter drop the update, exactly as `List.set` does. -/
def atSet2d (m : List (List ℤ)) (i j : ℕ) (v : ℤ) : List (List ℤ) :=
  m.set i ((m.getD i []).set j v)

/-- `m.at[i, j].set v` where the column index is a traced int32 that may be
negative: a negative index resolves from the end of the row, and an index
that is still out of bounds is dropped. -/
def atSet2dWrap (m : List (List ℤ)) (i : ℕ) (j : ℤ) (v : ℤ) : List (List ℤ) :=
  let len := (m.getD i []).length
  let j2 := if j < 0 then j + len else j
  if 0 ≤ j2 ∧ j2 < (len : ℤ) then atSet2d m i j2.toNat v else m

/-- The indices at which `p` holds, in ascending order
(the meaningful part of a `jnp.where` call). -/
def idxsWhere (p : ℤ → Bool) (l : List ℤ) : List ℕ :=
  (List.range l.length).filter (fun i => p (l.getD i 0))

/-- Pad an index list to length `n` with the `jnp.where(..., size=n)`
fill value `0`. -/
def padTo (l : List ℕ) (n : ℕ) : List ℕ :=
  l.take n ++ List.replicate (n - l.length) 0

/-- `jax.lax.dynamic_slice_in_dim(l, start, len)`: the start index is clamped
so that the slice stays inside the array. -/
def dynSliceClamp (l : List ℤ) (start : ℤ) (len : ℕ) : List ℤ :=
  (l.drop (max 0 (min start ((l.length : ℤ) - len))).toNat).take len

/-- `jax.lax.dynamic_update_slice_in_dim(m, [row], start, axis=0)` writing one
row: the start index is clamped into range. -/
def dynUpdateRowClamp (m : List (List ℤ)) (row : List ℤ) (start : ℤ) : List (List ℤ) :=
  m.set (max 0 (min start ((m.length : ℤ) - 1))).toNat row

/-- The five "cache" variables of `PageManager`. -/
structure PMState where
  page_indices : List ℤ
  seq_lengths : List ℤ
  seq_pages : List ℤ
  seq_page_cursor : List ℤ
  seq_page_indices : List (List ℤ)
deriving DecidableEq

/-- `setup`: `page_indices` is initialized with `jnp.arange(self.num_pages)`,
the four per-slot variables with zeros. -/
def initState (cfg : Config) : PMState :=
  { page_indices := arangeInt cfg.num_pages
    seq_lengths := List.replicate cfg.max_num_sequences 0
    seq_pages := List.replicate cfg.max_num_sequences 0
    seq_page_cursor := List.replicate cfg.max_num_sequences 0
    seq_page_indices :=
      List.replicate cfg.max_num_sequences (List.replicate (maxPagesPerSequence cfg) 0) }

/-- A Python `for` loop over the given indices whose body may raise
(`none` aborts the whole call, as an uncaught exception does). -/
def runLoop (f : PMState → ℕ → Option PMState) : List ℕ → PMState → Option PMState
  | [], st => some st
  | i :: rest, st =>
    match f st i with
    | none => none
    | some st1 => runLoop f rest st1

/-- `release_slot(slot)`.  The loop
`for i in range(seq_pages[slot]): self.page_indices.value.at[page_idx].set(0)`
computes a freed pool array but discards every result, so `page_indices` is
untouched; the four per-slot updates are assigned back. -/
def release_slot (cfg : Config) (s : PMState) (slot : ℕ) : PMState :=
  { s with
    seq_lengths := dynSet s.seq_lengths 0 slot
    seq_pages := dynSet s.seq_pages 0 slot
    seq_page_cursor := dynSet s.seq_page_cursor 0 slot
    seq_page_indices :=
      dynSetRow s.seq_page_indices (List.replicate (maxPagesPerSequence cfg) 0) slot }

/-- The three writes of `assign_prefill_step_pages` before its loop:
`seq_lengths[slot] = true_length`, `seq_pages[slot] = ceil(true_length/page_size)`,
`seq_page_cursor[slot] = (true_length - 1) % page_size`. -/
def prefillHeader (cfg : Config) (s : PMState) (slot : ℕ) (true_length : ℤ) : PMState :=
  { s with
    seq_lengths := dynSet s.seq_lengths true_length slot
    seq_pages := dynSet s.seq_pages (ceilDiv true_length cfg.page_size) slot
    seq_page_cursor := dynSet s.seq_page_cursor ((true_length - 1) % (cfg.page_size : ℤ)) slot }

/-- One iteration of the `for i in range(seq_pages)` loop of
`assign_prefill_step_pages`: assert that not all usable pages are in use,
find `page_idx = jnp.where(page_indices[1:] == 0, size=1)[0]` (an index into
the *sliced* array), compute `page_indices.at[page_idx].set(1)` (result
discarded), and write `page_idx` at `seq_page_indices[slot, i]`. -/
def prefillStep (cfg : Config) (slot : ℕ) (st : PMState) (i : ℕ) : Option PMState :=
  if countNonzero (st.page_indices.drop 1) = cfg.num_pages - 1 then
    none
  else
    some { st with
      seq_page_indices :=
        atSet2d st.seq_page_indices slot i
          ((whereFirstZero (st.page_indices.drop 1) : ℕ) : ℤ) }

/-- `assign_prefill_step_pages(slot, true_length)`. -/
def assign_prefill_step_pages (cfg : Config) (s : PMState) (slot : ℕ)
    (true_length : ℤ) : Option PMState :=
  runLoop (prefillStep cfg slot)
    (List.range (ceilDiv true_length cfg.page_size).toNat)
    (prefillHeader cfg s slot true_length)

/-- `self.seq_lengths.value += jax.lax.cond(self.seq_lengths.value > 0, 1, 0)`:
each positive entry is incremented. -/
def decodeLengths (s : PMState) : List ℤ :=
  s.seq_lengths.map (fun x => if 0 < x then x + 1 else x)

/-- `jnp.ceil(self.seq_lengths / self.page_size).astype(jnp.int32)` after the
increment. -/
def decodeSeqPages (cfg : Config) (s : PMState) : List ℤ :=
  (decodeLengths s).map (fun x => ceilDiv x cfg.page_size)

/-- `new_pages = jnp.count_nonzero(seq_new_pages)` where
`seq_new_pages = self.seq_pages.value - current_seq_pages`. -/
def decodeNewPages (cfg : Config) (s : PMState) : ℕ :=
  countNonzero (List.zipWith (fun a b => a - b) (decodeSeqPages cfg s) s.seq_pages)

/-- The elementwise part of `assign_decode_step_pages`: new lengths, page
counts recomputed from them, and `seq_page_cursor = (seq_lengths - 1) % page_size`
recomputed for *every* slot. -/
def decodeHeader (cfg : Config) (s : PMState) : PMState :=
  { s with
    seq_lengths := decodeLengths s
    seq_pages := decodeSeqPages cfg s
    seq_page_cursor := (decodeLengths s).map (fun x => (x - 1) % (cfg.page_size : ℤ)) }

/-- `updating_slots = jnp.where(seq_new_pages > 0, size=max_num_sequences)`:
the indices of the slots that crossed a page boundary, padded with the fill
value `0` up to `max_num_sequences`. -/
def updatingSlots (cfg : Config) (s : PMState) : List ℕ :=
  padTo
    (idxsWhere (fun x => decide (0 < x))
      (List.zipWith (fun a b => a - b) (decodeSeqPages cfg s) s.seq_pages))
    cfg.max_num_sequences

/-- One iteration of the `for i in range(new_pages)` loop of
`assign_decode_step_pages`: assert that not all usable pages are in use; then
`slot = updating_slots[i]` — `updating_slots` is the index *tuple* returned by
`jnp.where`, so the lookup is out of range once `i ≥ 1` over the modelled axis
— then find `page_idx` (again an index into the sliced pool), compute the pool
update (result discarded), and scatter `page_idx` into
`seq_page_indices.at[slot, seq_pages[slot]-1]` for the whole padded index
array `slot`. -/
def decodeStep (cfg : Config) (updating : List ℕ) (st : PMState) (i : ℕ) :
    Option PMState :=
  if countNonzero (st.page_indices.drop 1) = cfg.num_pages - 1 then
    none
  else if 1 ≤ i then
    none
  else
    some { st with
      seq_page_indices :=
        updating.foldl
          (fun m j =>
            atSet2dWrap m j (st.seq_pages.getD j 0 - 1)
              ((whereFirstZero (st.page_indices.drop 1) : ℕ) : ℤ))
          st.seq_page_indices }

/-- `assign_decode_step_pages()`. -/
def assign_decode_step_pages (cfg : Config) (s : PMState) : Option PMState :=
  if decodeNewPages cfg s = 0 then
    some (decodeHeader cfg s)
  else
    runLoop (decodeStep cfg (updatingSlots cfg s))
      (List.range (decodeNewPages cfg s))
      (decodeHeader cfg s)

/-- `update_prefill_step_pages(key_pages, value_pages, key, value, slot)`:
for `i in range(seq_pages[slot])`, slice `page_size` positions of `key`/`value`
starting at `(i-1) * page_size` (as written in the source) and write the block
into the page buffers at row `seq_page_indices[slot][i]`.  Head, batch and
feature axes are flattened away (the operation is identical across them). -/
def update_prefill_step_pages (cfg : Config) (s : PMState)
    (key_pages value_pages : List (List ℤ)) (key value : List ℤ) (slot : ℕ) :
    List (List ℤ) × List (List ℤ) :=
  (List.range (s.seq_pages.getD slot 0).toNat).foldl
    (fun kv i =>
      let assigned : ℤ := (s.seq_page_indices.getD slot []).getD i 0
      (dynUpdateRowClamp kv.1
          (dynSliceClamp key (((i : ℤ) - 1) * cfg.page_size) cfg.page_size) assigned,
        dynUpdateRowClamp kv.2
          (dynSliceClamp value (((i : ℤ) - 1) * cfg.page_size) cfg.page_size) assigned))
    (key_pages, value_pages)

/-- The number of free usable pages: zero entries of `page_indices[1:]`. -/
def freePageCount (s : PMState) : ℕ :=
  ((s.page_indices.drop 1).filter (fun x => x == 0)).length

/-! ## Concrete configurations and states used as witnesses / counterexamples -/

/-- `max_num_sequences=1`, `max_target_length=8`, `page_size=4`, `num_pages=4`
(three usable pages, two pages per sequence). -/
def cfgW : Config := ⟨1, 8, 4, 4⟩

/-- An empty one-slot table over a fully free usable pool. -/
def sW : PMState := ⟨[0, 0, 0, 0], [0], [0], [0], [[0, 0]]⟩

/-- The state `assign_prefill_step_pages cfgW sW 0 8` produces. -/
def sWprefill : PMState := ⟨[0, 0, 0, 0], [8], [2], [3], [[0, 0]]⟩

/-- The state `assign_decode_step_pages cfgW sW` produces. -/
def sWdecode : PMState := ⟨[0, 0, 0, 0], [0], [0], [3], [[0, 0]]⟩

/-- Like `sW` but with junk in the (inactive) slot's page list. -/
def sW9 : PMState := ⟨[0, 0, 0, 0], [0], [0], [0], [[7, 7]]⟩

/-- The state `assign_prefill_step_pages cfgW sW9 0 8` produces. -/
def sW9prefill : PMState := ⟨[0, 0, 0, 0], [8], [2], [3], [[0, 0]]⟩

/-- `max_num_sequences=2`, `page_size=4`, `num_pages=3`. -/
def cfgC1 : Config := ⟨2, 8, 4, 3⟩

/-- `max_num_sequences=1`, `max_target_length=4`, `page_size=4`, `num_pages=3`:
one page per sequence, usable pages `1` and `2`. -/
def cfgC4 : Config := ⟨1, 4, 4, 3⟩

/-- Page `1` free, page `2` in use, slot empty with junk `7` in its page list. -/
def sC4 : PMState := ⟨[0, 0, 1], [0], [0], [0], [[7]]⟩

/-- Scenario A of the spec: `page_size=16`, `num_pages=10` (9 usable). -/
def cfgC5 : Config := ⟨1, 32, 16, 10⟩

/-- `page_size=4`, `num_pages=3`, a single slot. -/
def cfgC6 : Config := ⟨1, 8, 4, 3⟩

/-- Pool with page `1` in use and page `2` the only free usable page. -/
def sC7 : PMState := ⟨[0, 1, 0], [0], [0], [0], [[0, 0]]⟩

/-- `page_size=2`, `num_pages=4`, `max_pages_per_sequence=2`. -/
def cfgC8 : Config := ⟨1, 4, 2, 4⟩

/-- A slot owning pages `1` and `2` after a 4-token prefill. -/
def sC8 : PMState := ⟨[0, 1, 1, 0], [4], [2], [1], [[1, 2]]⟩

/-- Empty 4-row, 2-column key/value page buffer. -/
def kpC8 : List (List ℤ) := [[0, 0], [0, 0], [0, 0], [0, 0]]

/-- A state over `cfgC6` whose pool is still the `arange` initial value and
whose single slot is about to cross a page boundary. -/
def sC10 : PMState := ⟨[0, 1, 2], [4], [1], [3], [[0, 0]]⟩

/-! ## Helper lemmas -/

lemma list_getD_set_self {α : Type} (l : List α) (i : ℕ) (v d : α) (h : i < l.length) :
    (l.set i v).getD i d = v := by
  induction l generalizing i with
  | nil => simp at h
  | cons a t ih =>
    cases i with
    | zero => rfl
    | succ n => exact ih n (by simpa using h)

lemma list_getD_set_ne {α : Type} (l : List α) (i j : ℕ) (v d : α) (h : i ≠ j) :
    (l.set i v).getD j d = l.getD j d := by
  induction l generalizing i j with
  | nil => rfl
  | cons a t ih =>
    cases i with
    | zero =>
      cases j with
      | zero => exact absurd rfl h
      | succ m => rfl
    | succ n =>
      cases j with
      | zero => rfl
      | succ m =>
        show (t.set n v).getD m d = t.getD m d
        exact ih n m (by omega)

lemma list_set_oob {α : Type} (l : List α) (i : ℕ) (v : α) (h : l.length ≤ i) :
    l.set i v = l := by
  induction l generalizing i with
  | nil => rfl
  | cons a t ih =>
    cases i with
    | zero => simp at h
    | succ n =>
      show a :: t.set n v = a :: t
      rw [ih n (by simpa using h)]

lemma get2d_atSet2d_self (m : List (List ℤ)) (i j : ℕ) (v : ℤ)
    (hi : i < m.length) (hj : j < (m.getD i []).length) :
    get2d (atSet2d m i j v) i j = v := by
  unfold get2d atSet2d
  rw [list_getD_set_self _ _ _ _ hi, list_getD_set_self _ _ _ _ hj]

lemma get2d_atSet2d_ne (m : List (List ℤ)) (i j i2 j2 : ℕ) (v : ℤ)
    (h : i2 ≠ i ∨ j2 ≠ j) :
    get2d (atSet2d m i j v) i2 j2 = get2d m i2 j2 := by
  unfold get2d atSet2d
  by_cases hrow : i = i2
  · subst hrow
    have hj : j2 ≠ j := by
      rcases h with h1 | h2
      · exact absurd rfl h1
      · exact h2
    by_cases hi : i < m.length
    · rw [list_getD_set_self _ _ _ _ hi, list_getD_set_ne _ _ _ _ _ (fun e => hj e.symm)]
    · rw [list_set_oob _ _ _ (Nat.le_of_not_lt hi)]
  · rw [list_getD_set_ne _ _ _ _ _ hrow]

lemma atSet2d_length (m : List (List ℤ)) (i j : ℕ) (v : ℤ) :
    (atSet2d m i j v).length = m.length := by
  unfold atSet2d
  exact List.length_set m i _

lemma atSet2d_rowlen (m : List (List ℤ)) (i j : ℕ) (v : ℤ) (r : ℕ) :
    ((atSet2d m i j v).getD r []).length = (m.getD r []).length := by
  unfold atSet2d
  by_cases hrow : i = r
  · subst hrow
    by_cases hi : i < m.length
    · rw [list_getD_set_self _ _ _ _ hi, List.length_set]
    · rw [list_set_oob _ _ _ (Nat.le_of_not_lt hi)]
  · rw [list_getD_set_ne _ _ _ _ _ hrow]

/-- Every usable entry of the `arange` pool initializer is nonzero. -/
lemma arange_drop_ne_zero (n : ℕ) : ∀ x ∈ (arangeInt n).drop 1, x ≠ 0 := by
  cases n with
  | zero => intro x hx; simp [arangeInt] at hx
  | succ m =>
    intro x hx
    unfold arangeInt at hx
    rw [List.range_succ_eq_map, List.map_cons, List.drop_succ_cons, List.drop_zero,
      List.map_map] at hx
    obtain ⟨j, _, rfl⟩ := List.mem_map.mp hx
    simp [Function.comp]
    omega

lemma countNonzero_eq_length (l : List ℤ) (h : ∀ x ∈ l, x ≠ 0) :
    countNonzero l = l.length := by
  unfold countNonzero
  rw [List.filter_eq_self.mpr]
  intro a ha
  simpa using h a ha

/-- The in-use count of the `arange`-initialized pool's usable slice is
`num_pages - 1`: every usable page is flagged in use from the start. -/
lemma countNonzero_arange_drop (n : ℕ) :
    countNonzero ((arangeInt n).drop 1) = n - 1 := by
  rw [countNonzero_eq_length _ (arange_drop_ne_zero n), List.length_drop]
  unfold arangeInt
  rw [List.length_map, List.length_range]

/-- A successful `prefillStep` only rewrites `seq_page_indices`. -/
lemma prefillStep_some (cfg : Config) (slot : ℕ) (st : PMState) (a : ℕ) (st1 : PMState)
    (h : prefillStep cfg slot st a = some st1) :
    st1 = { st with
      seq_page_indices :=
        atSet2d st.seq_page_indices slot a
          ((whereFirstZero (st.page_indices.drop 1) : ℕ) : ℤ) } := by
  unfold prefillStep at h
  split at h
  · exact Option.noConfusion h
  · exact (Option.some.inj h).symm

lemma prefillStep_pi (cfg : Config) (slot : ℕ) (st : PMState) (a : ℕ) (st1 : PMState)
    (h : prefillStep cfg slot st a = some st1) :
    st1.page_indices = st.page_indices := by
  rw [prefillStep_some cfg slot st a st1 h]

/-- A successful `decodeStep` leaves the pool array untouched. -/
lemma decodeStep_pi (cfg : Config) (updating : List ℕ) (st : PMState) (i : ℕ)
    (st1 : PMState) (h : decodeStep cfg updating st i = some st1) :
    st1.page_indices = st.page_indices := by
  unfold decodeStep at h
  split at h
  · exact Option.noConfusion h
  · split at h
    · exact Option.noConfusion h
    · cases Option.some.inj h
      rfl

/-- A completed loop whose body never changes `page_indices` does not change
`page_indices`. -/
lemma runLoop_pi (f : PMState → ℕ → Option PMState)
    (hf : ∀ st i st1, f st i = some st1 → st1.page_indices = st.page_indices) :
    ∀ (l : List ℕ) (st st2 : PMState),
      runLoop f l st = some st2 → st2.page_indices = st.page_indices := by
  intro l
  induction l with
  | nil =>
    intro st st2 h
    simp only [runLoop] at h
    cases Option.some.inj h
    rfl
  | cons a rest ih =>
    intro st st2 h
    simp only [runLoop] at h
    cases hstep : f st a with
    | none => rw [hstep] at h; exact Option.noConfusion h
    | some st1 =>
      rw [hstep] at h
      rw [ih st1 st2 h, hf st a st1 hstep]

/-- Through a completed run of the prefill allocation loop the pool array
stays what it was at entry, the shape of `seq_page_indices` is preserved, and
every in-range slot entry whose index was visited (or that already held the
loop's page index) ends up holding
`whereFirstZero (PI.drop 1)` — because the free-page search of every
iteration consults the same, never-updated pool. -/
lemma prefill_runLoop_writes (cfg : Config) (slot : ℕ) (PI : List ℤ) :
    ∀ (l : List ℕ) (st st2 : PMState),
      st.page_indices = PI →
      runLoop (prefillStep cfg slot) l st = some st2 →
      st2.page_indices = PI ∧
      st2.seq_page_indices.length = st.seq_page_indices.length ∧
      (st2.seq_page_indices.getD slot []).length
        = (st.seq_page_indices.getD slot []).length ∧
      (∀ i : ℕ, slot < st.seq_page_indices.length →
        i < (st.seq_page_indices.getD slot []).length →
        (i ∈ l ∨ get2d st.seq_page_indices slot i
          = ((whereFirstZero (PI.drop 1) : ℕ) : ℤ)) →
        get2d st2.seq_page_indices slot i
          = ((whereFirstZero (PI.drop 1) : ℕ) : ℤ)) := by
  intro l
  induction l with
  | nil =>
    intro st st2 hpi h
    simp only [runLoop] at h
    cases Option.some.inj h
    refine ⟨hpi, rfl, rfl, ?_⟩
    intro i _ _ hcase
    rcases hcase with hmem | heq
    · simp at hmem
    · exact heq
  | cons a rest ih =>
    intro st st2 hpi h
    simp only [runLoop] at h
    cases hstep : prefillStep cfg slot st a with
    | none => rw [hstep] at h; exact Option.noConfusion h
    | some st1 =>
      rw [hstep] at h
      have hform := prefillStep_some cfg slot st a st1 hstep
      have hpi1 : st1.page_indices = PI := by rw [hform]; exact hpi
      obtain ⟨r2pi, r2len, r2row, r2get⟩ := ih st1 st2 hpi1 h
      have hlen1 : st1.seq_page_indices.length = st.seq_page_indices.length := by
        rw [hform]; exact atSet2d_length _ _ _ _
      have hrow1 : (st1.seq_page_indices.getD slot []).length
          = (st.seq_page_indices.getD slot []).length := by
        rw [hform]; exact atSet2d_rowlen _ _ _ _ _
      refine ⟨r2pi, by rw [r2len, hlen1], by rw [r2row, hrow1], ?_⟩
      intro i hslt hilt hcase
      have hslt1 : slot < st1.seq_page_indices.length := by rw [hlen1]; exact hslt
      have hilt1 : i < (st1.seq_page_indices.getD slot []).length := by
        rw [hrow1]; exact hilt
      apply r2get i hslt1 hilt1
      by_cases hia : i = a
      · right
        subst hia
        rw [hform]
        show get2d (atSet2d st.seq_page_indices slot i
          ((whereFirstZero (st.page_indices.drop 1) : ℕ) : ℤ)) slot i = _
        rw [hpi]
        exact get2d_atSet2d_self _ _ _ _ hslt hilt
      · rcases hcase with hmem | heq
        · rcases List.mem_cons.mp hmem with h1 | h2
          · exact absurd h1 hia
          · left; exact h2
        · right
          rw [hform]
          show get2d (atSet2d st.seq_page_indices slot a
            ((whereFirstZero (st.page_indices.drop 1) : ℕ) : ℤ)) slot i = _
          rw [get2d_atSet2d_ne _ _ _ _ _ _ (Or.inr hia)]
          exact heq

lemma one_le_ceilDiv (L : ℤ) (b : ℕ) (hb : 1 ≤ b) (hL : 1 ≤ L) : 1 ≤ ceilDiv L b := by
  unfold ceilDiv
  have hb0 : (0 : ℤ) < (b : ℤ) := by exact_mod_cast hb
  have h1 : ((b : ℤ)) / (b : ℤ) = 1 := Int.ediv_self (by omega)
  have h2 : (b : ℤ) / (b : ℤ) ≤ (L + b - 1) / b := Int.ediv_le_ediv hb0 (by omega)
  omega

/-! ## Claims -/

/-- C1: the claimed invariant — that the pages owned by active slots are
exactly the pages flagged in-use, with no page shared between two active
slots — already fails at the freshly initialized state (reachable by the empty
call sequence): with `max_num_sequences = 2` and `num_pages = 3`, both slots
own zero pages (`seq_pages = [0, 0]`) while the `arange` initializer flags
both usable pages in use (`countNonzero` of `page_indices[1:]` is `2`), and no
operation ever assigns an updated `page_indices` back.  The code contradicts
the documented invariant. -/
theorem C1_init_inuse_pages_mismatch :
    (initState cfgC1).seq_pages = [0, 0] ∧
    countNonzero ((initState cfgC1).page_indices.drop 1) = 2 :=
  ⟨rfl, rfl⟩

/-- C2: `release_slot`, `assign_prefill_step_pages` and
`assign_decode_step_pages` all leave the pool array `page_indices` exactly as
it was — every in-place update of it is computed but its result is
discarded. -/
theorem C2_page_indices_unchanged (cfg : Config) (s : PMState) (slot : ℕ) (L : ℤ)
    (s1 s2 : PMState)
    (hp : assign_prefill_step_pages cfg s slot L = some s1)
    (hd : assign_decode_step_pages cfg s = some s2) :
    (release_slot cfg s slot).page_indices = s.page_indices ∧
    s1.page_indices = s.page_indices ∧
    s2.page_indices = s.page_indices := by
  refine ⟨rfl, ?_, ?_⟩
  · unfold assign_prefill_step_pages at hp
    exact runLoop_pi _ (prefillStep_pi cfg slot) _ (prefillHeader cfg s slot L) _ hp
  · unfold assign_decode_step_pages at hd
    split at hd
    · cases Option.some.inj hd
      rfl
    · exact runLoop_pi _ (decodeStep_pi cfg (updatingSlots cfg s)) _ (decodeHeader cfg s) _ hd

/-- C2 witness: a concrete state on which both a prefill and a decode call
complete, leaving `page_indices` untouched. -/
theorem C2_witness :
    (release_slot cfgW sW 0).page_indices = sW.page_indices ∧
    sWprefill.page_indices = sW.page_indices ∧
    sWdecode.page_indices = sW.page_indices :=
  C2_page_indices_unchanged cfgW sW 0 8 sWprefill sWdecode (by decide) (by decide)

/-- C3: whenever `assign_prefill_step_pages slot L` (with `1 ≤ L`) completes,
an immediate `release_slot slot` leaves the pool's free-page count equal to
the count before the prefill call. -/
theorem C3_roundtrip_free_page_count (cfg : Config) (s : PMState) (slot : ℕ)
    (L : ℤ) (s1 : PMState) (hL : 1 ≤ L)
    (hp : assign_prefill_step_pages cfg s slot L = some s1) :
    freePageCount (release_slot cfg s1 slot) = freePageCount s := by
  unfold assign_prefill_step_pages at hp
  have h1 : s1.page_indices = s.page_indices :=
    runLoop_pi _ (prefillStep_pi cfg slot) _ (prefillHeader cfg s slot L) _ hp
  have h2 : (release_slot cfg s1 slot).page_indices = s.page_indices := h1
  unfold freePageCount
  rw [h2]

/-- C3 witness: the round trip at a concrete successful prefill. -/
theorem C3_witness :
    freePageCount (release_slot cfgW sWprefill 0) = freePageCount sW :=
  C3_roundtrip_free_page_count cfgW sW 0 8 sWprefill (by decide) (by decide)

/-- C4: first-fit allocation as specified fails on the code.  With pool
`[0, 0, 1]` (first free usable page is page `1`) a one-page prefill records
`0` — the index into the sliced array `page_indices[1:]`, which is also the
reserved sentinel id — in `seq_page_indices`, and marks nothing in use
(`page_indices` is returned unchanged). -/
theorem C4_prefill_records_slice_index_not_page_id :
    assign_prefill_step_pages cfgC4 sC4 0 1
      = some ⟨[0, 0, 1], [1], [1], [0], [[0]]⟩ :=
  rfl

/-- C5: Scenario A fails on the code.  With `page_size = 16`, `num_pages = 10`
the claimed call `assign_prefill_step_pages(slot=0, true_length=20)` on the
freshly initialized state does not yield two distinct page ids from `{1..9}`:
it raises the "All pages are in use." assertion at the first loop iteration,
because the `arange` initializer left every usable page flagged in use. -/
theorem C5_scenarioA_trips_assertion :
    assign_prefill_step_pages cfgC5 (initState cfgC5) 0 20 = none :=
  rfl

/-- C6: one decode step does not leave slots with `seq_length = 0` unchanged,
and allocates nothing in the pool.  With `page_size = 4` and a single inactive
slot, the call completes but rewrites the slot's `seq_page_cursor` from `0` to
`(0 - 1) % 4 = 3`, while `page_indices` keeps its initial value. -/
theorem C6_decode_mutates_inactive_slot :
    assign_decode_step_pages cfgC6 (initState cfgC6)
      = some ⟨[0, 1, 2], [0], [0], [3], [[0, 0]]⟩ :=
  rfl

/-- C7: pool exhaustion is not detected.  With exactly one free usable page
(pool `[0, 1, 0]`, page `2` free) and `true_length = 5` requiring two pages
(`page_size = 4`), the call does not fail with the "All pages are in use."
assertion: it completes, records the same sliced-pool index `1` at both
positions of the slot's page list, and leaves the pool unchanged — because
the in-use mark computed in each iteration is discarded, the second iteration
still sees a free page. -/
theorem C7_exhausted_pool_prefill_succeeds_doubly :
    assign_prefill_step_pages cfgC6 sC7 0 5
      = some ⟨[0, 1, 0], [5], [2], [0], [[1, 1]]⟩ :=
  rfl

/-- C8: the prefill storage writer does not write token range
`[i*page_size, (i+1)*page_size)` to the `i`-th owned page: the source slices
from `(i-1)*page_size`, which the clamped dynamic slice turns into range
`[0, page_size)` for both `i = 0` and `i = 1`.  With `page_size = 2`, a slot
owning pages `1` and `2`, and key/value vectors `[10,11,12,13]` /
`[20,21,22,23]`, both rows receive the first block; the claim expects row `2`
to receive `[12, 13]` / `[22, 23]`. -/
theorem C8_prefill_write_ranges_off_by_one :
    update_prefill_step_pages cfgC8 sC8 kpC8 kpC8 [10, 11, 12, 13] [20, 21, 22, 23] 0
      = ([[0, 0], [10, 11], [10, 11], [0, 0]],
         [[0, 0], [20, 21], [20, 21], [0, 0]]) :=
  rfl

/-- C9: within one completed `assign_prefill_step_pages` call every loop
iteration selects the same page index — the pool consulted by the free-page
search is never updated between iterations — so all first
`ceil(true_length / page_size)` entries of the slot's page list are equal
afterwards. -/
theorem C9_prefill_records_same_page (cfg : Config) (s : PMState) (slot : ℕ)
    (L : ℤ) (s1 : PMState)
    (hp : assign_prefill_step_pages cfg s slot L = some s1)
    (hs : slot < s.seq_page_indices.length)
    (hk : (ceilDiv L cfg.page_size).toNat ≤ (s.seq_page_indices.getD slot []).length)
    (i j : ℕ) (hi : i < (ceilDiv L cfg.page_size).toNat)
    (hj : j < (ceilDiv L cfg.page_size).toNat) :
    get2d s1.seq_page_indices slot i = get2d s1.seq_page_indices slot j := by
  unfold assign_prefill_step_pages at hp
  have hmain := prefill_runLoop_writes cfg slot s.page_indices
    (List.range (ceilDiv L cfg.page_size).toNat) (prefillHeader cfg s slot L) s1 rfl hp
  have e1 := hmain.2.2.2 i hs (lt_of_lt_of_le hi hk) (Or.inl (List.mem_range.mpr hi))
  have e2 := hmain.2.2.2 j hs (lt_of_lt_of_le hj hk) (Or.inl (List.mem_range.mpr hj))
  rw [e1, e2]

/-- C9 witness: a two-page prefill over a junk-filled row records the same
index at both positions. -/
theorem C9_witness :
    get2d sW9prefill.seq_page_indices 0 0 = get2d sW9prefill.seq_page_indices 0 1 :=
  C9_prefill_records_same_page cfgW sW9 0 8 sW9prefill (by decide) (by decide)
    (by decide) 0 1 (by decide) (by decide)

/-- C10: `setup` initializes `page_indices` to `0, 1, ..., num_pages-1`, so
all `num_pages - 1` usable entries are nonzero, and — since nothing ever
updates the pool — every `assign_prefill_step_pages` call with
`true_length ≥ 1` on the fresh state, and every decode step that needs a new
page over such a pool, raises the "All pages are in use." assertion in its
first loop iteration. -/
theorem C10_arange_init_allocation_always_fails (cfg : Config) (slot : ℕ)
    (L : ℤ) (s : PMState) (hps : 1 ≤ cfg.page_size) (hL : 1 ≤ L)
    (hpi : s.page_indices = arangeInt cfg.num_pages)
    (hneed : decodeNewPages cfg s ≠ 0) :
    (initState cfg).page_indices = arangeInt cfg.num_pages ∧
    countNonzero ((initState cfg).page_indices.drop 1) = cfg.num_pages - 1 ∧
    assign_prefill_step_pages cfg (initState cfg) slot L = none ∧
    assign_decode_step_pages cfg s = none := by
  refine ⟨rfl, countNonzero_arange_drop _, ?_, ?_⟩
  · have hk : 1 ≤ (ceilDiv L cfg.page_size).toNat := by
      have := one_le_ceilDiv L cfg.page_size hps hL
      omega
    obtain ⟨m, hm⟩ : ∃ m, (ceilDiv L cfg.page_size).toNat = m + 1 :=
      ⟨(ceilDiv L cfg.page_size).toNat - 1, by omega⟩
    unfold assign_prefill_step_pages
    rw [hm, List.range_succ_eq_map]
    simp only [runLoop]
    have hcond :
        countNonzero
            (((prefillHeader cfg (initState cfg) slot L).page_indices).drop 1)
          = cfg.num_pages - 1 := by
      show countNonzero ((arangeInt cfg.num_pages).drop 1) = cfg.num_pages - 1
      exact countNonzero_arange_drop _
    have hfail :
        prefillStep cfg slot (prefillHeader cfg (initState cfg) slot L) 0 = none := by
      unfold prefillStep
      rw [if_pos hcond]
    rw [hfail]
  · unfold assign_decode_step_pages
    rw [if_neg hneed]
    obtain ⟨m, hm⟩ : ∃ m, decodeNewPages cfg s = m + 1 :=
      ⟨decodeNewPages cfg s - 1, by omega⟩
    rw [hm, List.range_succ_eq_map]
    simp only [runLoop]
    have hcond :
        countNonzero (((decodeHeader cfg s).page_indices).drop 1)
          = cfg.num_pages - 1 := by
      show countNonzero (s.page_indices.drop 1) = cfg.num_pages - 1
      rw [hpi]
      exact countNonzero_arange_drop _
    have hfail :
        decodeStep cfg (updatingSlots cfg s) (decodeHeader cfg s) 0 = none := by
      unfold decodeStep
      rw [if_pos hcond]
    rw [hfail]

/-- C10 witness: with `page_size = 4`, `num_pages = 3`, a fresh one-slot
manager rejects a one-token prefill, and a decode step that crosses a page
boundary over the `arange` pool fails as well. -/
theorem C10_witness :
    (initState cfgC6).page_indices = arangeInt cfgC6.num_pages ∧
    countNonzero ((initState cfgC6).page_indices.drop 1) = cfgC6.num_pages - 1 ∧
    assign_prefill_step_pages cfgC6 (initState cfgC6) 0 1 = none ∧
    assign_decode_step_pages cfgC6 sC10 = none :=
  C10_arange_init_allocation_always_fails cfgC6 0 1 sC10 (by decide) (by decide)
    (by decide) (by decide)
